import Mathlib

/-!
Verification of the Trace2 tracing subsystem of git-bundle-server.

Shallow embedding of src/internal/log/trace2.go and
src/internal/log/tr2-perf-encoder.go: the field model, the
performance-table encoder, the context state manager (session id and
region nesting), the child-process id counter and the
error-deduplication wrapper, together with theorems settling the
frozen claims about them.
-/

set_option maxRecDepth 100000

namespace Trace2Spec

/-- Decidable equality of encoder results, for evaluating the
encoders on concrete inputs. -/
instance {e a : Type} [DecidableEq e] [DecidableEq a] : DecidableEq (Except e a) := fun x y =>
  match x, y with
  | .ok v, .ok w => if h : v = w then .isTrue (by rw [h]) else .isFalse (by simp [h])
  | .error v, .error w => if h : v = w then .isTrue (by rw [h]) else .isFalse (by simp [h])
  | .ok _, .error _ => .isFalse (by simp)
  | .error _, .ok _ => .isFalse (by simp)

/-! ## String formatting helpers (Go fmt verbs used by the encoders) -/

/-- Go fmt verb %-*s: pad with spaces on the right to a minimum width. -/
def padRight (w : Nat) (s : String) : String :=
  s ++ String.mk (List.replicate (w - s.length) ' ')

/-- Go fmt verb %*s: pad with spaces on the left to a minimum width. -/
def padLeft (w : Nat) (s : String) : String :=
  String.mk (List.replicate (w - s.length) ' ') ++ s

/-- Zero-pad a decimal rendering on the left to a given width. -/
def padZero (w : Nat) (n : Nat) : String :=
  let s := toString n
  String.mk (List.replicate (w - s.length) '0') ++ s

/-- A wall-clock time of day, the part of a Go time.Time value that the
performance encoder renders (format string 15:04:05.000000). -/
structure GoTime where
  hour : Nat
  minute : Nat
  second : Nat
  micro : Nat
deriving DecidableEq

/-- Go time.Time.Format with layout 15:04:05.000000. -/
def formatGoTime (t : GoTime) : String :=
  padZero 2 t.hour ++ ":" ++ padZero 2 t.minute ++ ":" ++ padZero 2 t.second
    ++ "." ++ padZero 6 t.micro

/-- Fixed-point seconds with six fractional digits, modelling the Go
rendering %.6f of Duration.Seconds(); the float rounding at the sixth
decimal is modelled as integer rounding of nanoseconds to microseconds. -/
def secondsFixed6 (nanos : Int) : String :=
  let m : Int := if 0 ≤ nanos then (nanos + 500) / 1000 else -(((-nanos) + 500) / 1000)
  let sign := if m < 0 then "-" else ""
  let a := m.natAbs
  sign ++ toString (a / 1000000) ++ "." ++ padZero 6 (a % 1000000)

/-- Go fmt verb %9.6f applied to Duration.Seconds(). -/
def fmt96 (nanos : Int) : String :=
  padLeft 9 (secondsFixed6 nanos)

/-! ## Field model

zap.Field values as assembled by trace2.go: each field is a name paired
with a typed value (string, integer, boolean, duration, string list). -/

/-- The value of one zap.Field as stored by the encoders. -/
inductive FieldVal where
  | str (s : String)
  | int (i : Int)
  | bool (b : Bool)
  | dur (nanos : Int)
  | strs (l : List String)
deriving DecidableEq

/-- A field set: ordered name-value pairs, built fresh per event. -/
abbrev FieldSet := List (String × FieldVal)

/-- Lookup in the field map built by MapObjectEncoder.AddTo: for a
repeated name the last write wins, hence the reversed search. -/
def getField (fields : FieldSet) (name : String) : Option FieldVal :=
  (fields.reverse.find? (fun p => p.1 == name)).map (fun p => p.2)

/-- Whether a field of the given name is present. -/
def hasField (fields : FieldSet) (name : String) : Bool :=
  (getField fields name).isSome

/-- Go fmt verb %s applied to a field value held as interface. -/
def anyS : FieldVal → String
  | .str s => s
  | .int i => toString i
  | .bool b => if b then "true" else "false"
  | .dur nanos => toString nanos
  | .strs l => "[" ++ String.intercalate " " l ++ "]"

/-- Go fmt verb %d applied to a field value held as interface; the
encoders only ever apply it to integer-valued fields. -/
def anyD : FieldVal → String
  | .int i => toString i
  | .dur nanos => toString nanos
  | .bool b => if b then "1" else "0"
  | .str s => s
  | .strs l => "[" ++ String.intercalate " " l ++ "]"

/-- json.Marshal of a field value; for the value types the tracer
produces the marshal never fails (string escaping elided: the inputs
here contain no characters needing escapes). -/
def jsonMarshalVal : FieldVal → String
  | .str s => "\"" ++ s ++ "\""
  | .int i => toString i
  | .bool b => if b then "true" else "false"
  | .dur nanos => toString nanos
  | .strs l => "[" ++ String.intercalate "," (l.map (fun s => "\"" ++ s ++ "\"")) ++ "]"

/-- time.Duration nanoseconds of a field value, for the type assertion
val.(time.Duration) in the encoder; trace2.go only stores durations
under the t_abs and t_rel names, so the other branches are unreachable. -/
def durNanos : FieldVal → Int
  | .dur nanos => nanos
  | .int i => i
  | _ => 0

/-- Go int of a field value, for the assertion used on the nesting
field; trace2.go only stores an integer there. -/
def intVal : FieldVal → Int
  | .int i => i
  | .dur nanos => nanos
  | _ => 0

/-! ## Event and field names (constants of trace2.go) -/

@[simp] def tr2Event_Start : String := "start"
@[simp] def tr2Event_CmdName : String := "cmd_name"
@[simp] def tr2Event_RegionEnter : String := "region_enter"
@[simp] def tr2Event_RegionLeave : String := "region_leave"
@[simp] def tr2Event_ChildStart : String := "child_start"
@[simp] def tr2Event_ChildReady : String := "child_ready"
@[simp] def tr2Event_ChildExit : String := "child_exit"
@[simp] def tr2Event_Error : String := "error"
@[simp] def tr2Event_Exit : String := "exit"
@[simp] def tr2Event_AtExit : String := "atexit"

@[simp] def tr2Field_Sid : String := "sid"
@[simp] def tr2Field_TAbs : String := "t_abs"
@[simp] def tr2Field_TRel : String := "t_rel"
@[simp] def tr2Field_Nesting : String := "nesting"
@[simp] def tr2Field_Thread : String := "thread"
@[simp] def tr2Field_File : String := "file"
@[simp] def tr2Field_Line : String := "line"
@[simp] def tr2Field_Name : String := "name"
@[simp] def tr2Field_Argv : String := "argv"
@[simp] def tr2Field_Code : String := "code"
@[simp] def tr2Field_Category : String := "category"
@[simp] def tr2Field_Label : String := "label"
@[simp] def tr2Field_ChildId : String := "child_id"
@[simp] def tr2Field_ChildClass : String := "child_class"
@[simp] def tr2Field_UseShell : String := "use_shell"
@[simp] def tr2Field_Ready : String := "ready"
@[simp] def tr2Field_Pid : String := "pid"
@[simp] def tr2Field_Msg : String := "msg"
@[simp] def tr2Field_Fmt : String := "fmt"

/-! ## Performance-table encoder (src/internal/log/tr2-perf-encoder.go) -/

def tr2Enc_Perf_FileLineWidth : Nat := 28
def tr2Enc_Perf_ThreadWidth : Nat := 24
def tr2Enc_Perf_EventWidth : Nat := 12
def tr2Enc_Perf_CategoryWidth : Nat := 12

/-- Errors raised by the performance encoder. missingField renders the
source format string missing required field; formatArg renders could
not format argument array. -/
inductive EncErr where
  | missingField (name : String)
  | formatArg (name : String)
deriving DecidableEq

/-- getRequiredField: a field lookup that fails with a field-missing
error when the name is absent. -/
def getRequiredField (fields : FieldSet) (name : String) : Except EncErr FieldVal :=
  match getField fields name with
  | some v => .ok v
  | none => .error (.missingField name)

/-- getEventLog: the per-event-kind summary builder, with the required
field checks of the source switch statement, in source order. -/
def getEventLog (event : String) (fields : FieldSet) : Except EncErr String :=
  if event = tr2Event_CmdName then
    match getRequiredField fields tr2Field_Name with
    | .error e => .error e
    | .ok v => .ok (anyS v)
  else if event = tr2Event_Error then
    match getField fields tr2Field_Msg with
    | none => .ok ""
    | some v => .ok (anyS v)
  else if event = tr2Event_ChildStart then
    match getRequiredField fields tr2Field_ChildId with
    | .error e => .error e
    | .ok childId =>
      match getRequiredField fields tr2Field_ChildClass with
      | .error e => .error e
      | .ok childClass =>
        match getRequiredField fields tr2Field_Argv with
        | .error e => .error e
        | .ok argv =>
          .ok ("[ch" ++ anyD childId ++ "] class:" ++ anyS childClass
            ++ " argv:" ++ jsonMarshalVal argv)
  else if event = tr2Event_ChildReady then
    match getRequiredField fields tr2Field_ChildId with
    | .error e => .error e
    | .ok childId =>
      match getRequiredField fields tr2Field_Pid with
      | .error e => .error e
      | .ok pid =>
        match getRequiredField fields tr2Field_Ready with
        | .error e => .error e
        | .ok ready =>
          .ok ("[ch" ++ anyD childId ++ "] pid:" ++ anyD pid ++ " ready:" ++ anyS ready)
  else if event = tr2Event_ChildExit then
    match getRequiredField fields tr2Field_ChildId with
    | .error e => .error e
    | .ok childId =>
      match getRequiredField fields tr2Field_Pid with
      | .error e => .error e
      | .ok pid =>
        match getRequiredField fields tr2Field_Code with
        | .error e => .error e
        | .ok code =>
          .ok ("[ch" ++ anyD childId ++ "] pid:" ++ anyD pid ++ " code:" ++ anyD code)
  else if event = tr2Event_RegionEnter ∨ event = tr2Event_RegionLeave then
    match getField fields tr2Field_Label with
    | none => .ok ""
    | some v => .ok ("label:" ++ anyS v)
  else if event = tr2Event_Exit ∨ event = tr2Event_AtExit then
    match getRequiredField fields tr2Field_Code with
    | .error e => .error e
    | .ok v => .ok ("code:" ++ anyD v)
  else
    .ok ""

/-- A zapcore.Entry as seen by EncodeEntry: the timestamp and the
message, which carries the event name. -/
structure Tr2Entry where
  time : GoTime
  message : String
deriving DecidableEq

/-- The file-line column text: the source computes
fl[:len(fl)-3] + "..." when len(fl) exceeds the column width
(byte slicing coincides with character slicing on these ASCII inputs). -/
def truncFileLine (fl : String) : String :=
  if fl.length > tr2Enc_Perf_FileLineWidth then
    (fl.take (fl.length - 3)) ++ "..."
  else fl

/-- EncodeEntry of the performance encoder. The source appends to a
buffer and returns nil plus the error on a failed required lookup, so a
failure yields no output at all; here the same behaviour is the error
branch of Except. The failure checks occur in source order: file, line,
thread, then the per-event required fields of getEventLog. -/
def perfEncodeEntry (isBrief : Bool) (ent : Tr2Entry) (fields : FieldSet) :
    Except EncErr String :=
  let head : Except EncErr String :=
    if isBrief then .ok ""
    else
      match getRequiredField fields tr2Field_File with
      | .error e => .error e
      | .ok file =>
        match getRequiredField fields tr2Field_Line with
        | .error e => .error e
        | .ok line =>
          .ok (formatGoTime ent.time ++ " "
            ++ padRight tr2Enc_Perf_FileLineWidth
                 (truncFileLine (anyS file ++ ":" ++ anyD line)) ++ " | ")
  match head with
  | .error e => .error e
  | .ok hd =>
    match getRequiredField fields tr2Field_Thread with
    | .error e => .error e
    | .ok threadVal =>
      match getEventLog ent.message fields with
      | .error e => .error e
      | .ok logMsg =>
        let tAbsCol :=
          match getField fields tr2Field_TAbs with
          | none => padLeft 9 " " ++ " | "
          | some v => fmt96 (durNanos v) ++ " | "
        let tRelCol :=
          match getField fields tr2Field_TRel with
          | none => padLeft 9 " " ++ " | "
          | some v => fmt96 (durNanos v) ++ " | "
        let catCol :=
          let catS := match getField fields tr2Field_Category with
            | none => ""
            | some v => anyS v
          padRight tr2Enc_Perf_CategoryWidth (catS.take tr2Enc_Perf_CategoryWidth) ++ " | "
        let nestDots :=
          match getField fields tr2Field_Nesting with
          | none => ""
          | some v => String.mk (List.replicate (intVal v).toNat '.')
        .ok (hd ++ "d0 | "
          ++ padRight tr2Enc_Perf_ThreadWidth (anyS threadVal) ++ " | "
          ++ padRight tr2Enc_Perf_EventWidth ent.message ++ " | "
          ++ "    | " ++ tAbsCol ++ tRelCol ++ catCol ++ nestDots ++ logMsg ++ "\n")

/-! ## Event-stream encoder and the event core (trace2.go)

zapcore.NewJSONEncoder is an external library encoder with no
required-field contract: it renders every entry and field set to one
structured record and never fails. The exact byte layout (modelled
below with the literal brace delimiters) is immaterial to the claims;
what matters is totality. -/

/-- One rendered JSON field. -/
def jsonField (p : String × FieldVal) : String :=
  "\"" ++ p.1 ++ "\":" ++ jsonMarshalVal p.2

/-- The zapcore JSON encoder: total on every entry and field set. -/
def jsonEncodeEntry (ent : Tr2Entry) (fields : FieldSet) : Except EncErr String :=
  .ok ("\x7b" ++ String.intercalate ","
        (("\"event\":\"" ++ ent.message ++ "\"") :: fields.map jsonField)
      ++ "\x7d\n")

/-- Which encoder a core renders with. -/
inductive EncoderChoice where
  | json
  | perf
deriving DecidableEq

/-- createTrace2EventCore, the encoder selection: the source first
assigns encoder := zapcore.NewJSONEncoder(encoderConfig) and then
immediately reassigns encoder = NewTr2PerfEncoder(...), a dead store,
so the core built for the GIT_TRACE2_EVENT channel renders with the
performance-table encoder. -/
def eventCoreEncoder : EncoderChoice :=
  let encoder := EncoderChoice.json
  let encoder := EncoderChoice.perf
  encoder

/-- Encoding one event on the GIT_TRACE2_EVENT channel, through the
encoder chosen by createTrace2EventCore. createTrace2ZapLogger tees
exactly this one core, so this is the only rendering path. -/
def eventCoreEncode (ent : Tr2Entry) (fields : FieldSet) : Except EncErr String :=
  match eventCoreEncoder with
  | .json => jsonEncodeEntry ent fields
  | .perf => perfEncodeEntry false ent fields

/-! ## Context state manager (trace2.go)

Go context.Context is an immutable chain of key-value nodes; Value
walks from the child toward the root, so the chain is modelled as a
list with the newest node first and a first-match lookup. -/

/-- The context keys of trace2.go (sidId and parentRegionId). -/
inductive CtxKey where
  | sidId
  | parentRegionId
deriving DecidableEq

/-- The region state stored under parentRegionId: nesting level and
start instant (the level is a Go int, hence Int here; the instant is
opaque nanoseconds). -/
structure Trace2Region where
  level : Int
  tStart : Int
deriving DecidableEq

/-- A value stored in a context node. -/
inductive CtxVal where
  | sid (s : String)
  | region (r : Trace2Region)
deriving DecidableEq

/-- A context: newest node first, ending at the background context. -/
abbrev Ctx := List (CtxKey × CtxVal)

/-- ctx.Value(key): first match walking from the newest node. -/
def ctxValue (ctx : Ctx) (k : CtxKey) : Option CtxVal :=
  (ctx.find? (fun p => p.1 == k)).map (fun p => p.2)

/-- getContextValue at sidId with the string type assertion. -/
def getSidValue (ctx : Ctx) : Option String :=
  match ctxValue ctx .sidId with
  | some (.sid s) => some s
  | _ => none

/-- getContextValue at parentRegionId with the trace2Region type
assertion. -/
def getRegionValue (ctx : Ctx) : Option Trace2Region :=
  match ctxValue ctx .parentRegionId with
  | some (.region r) => some r
  | _ => none

/-- sharedFields on the context: getOrSetContextValue at sidId, where
the fresh session id (uuid.New in the source) enters as a parameter.
Returns the derived context and the session id used. -/
def sharedFieldsCtx (newSid : String) (ctx : Ctx) : Ctx × String :=
  match getSidValue ctx with
  | some s => (ctx, s)
  | none => ((⟨.sidId, .sid newSid⟩ : CtxKey × CtxVal) :: ctx, newSid)

/-- Region, the context-state part: derive the session id, read the
parent region, build the child region (level 0 without a parent,
parent level plus one otherwise, start stamped now) and attach it with
context.WithValue. Returns the derived context and the region state
captured for both the enter record and the leave closure. -/
def regionStep (newSid : String) (now : Int) (ctx : Ctx) : Ctx × Trace2Region :=
  let ctx1 := (sharedFieldsCtx newSid ctx).1
  let nesting : Trace2Region :=
    match getRegionValue ctx1 with
    | none => { level := 0, tStart := now }
    | some r => { level := r.level + 1, tStart := now }
  ((⟨.parentRegionId, .region nesting⟩ : CtxKey × CtxVal) :: ctx1, nesting)

/-- The contexts produced by the tracer: the background context, and
everything derived from a reachable context by the session-id setting
of sharedFields (logStart, LogCommand, Error, ...) or by Region. -/
inductive ReachableCtx : Ctx → Prop where
  | nil : ReachableCtx []
  | shared (s : String) (ctx : Ctx) :
      ReachableCtx ctx → ReachableCtx (sharedFieldsCtx s ctx).1
  | region (s : String) (now : Int) (ctx : Ctx) :
      ReachableCtx ctx → ReachableCtx (regionStep s now ctx).1

/-! ## Child-process ids (trace2.go)

lastChildId is an int32 initialised to -1 by NewTrace2; ChildProcess
assigns ids with atomic.AddInt32(&t.lastChildId, 1), which wraps
around on int32 overflow. -/

/-- Two-complement wraparound of a Go int32 value. -/
def wrap32 (n : Int) : Int :=
  (n + 2 ^ 31) % 2 ^ 32 - 2 ^ 31

/-- atomic.AddInt32: add and wrap to int32. -/
def atomicAddInt32 (cur delta : Int) : Int :=
  wrap32 (cur + delta)

/-- The value of lastChildId after n ChildProcess invocations on one
recorder (NewTrace2 starts it at -1). -/
def lastChildIdAfter : Nat → Int
  | 0 => -1
  | n + 1 => atomicAddInt32 (lastChildIdAfter n) 1

/-- The child id received by the n-th ChildProcess invocation
(0-indexed): the incremented counter value. -/
def nthChildId (n : Nat) : Int :=
  lastChildIdAfter (n + 1)

/-- The ids received by the first n invocations, in order. -/
def childIds (n : Nat) : List Int :=
  (List.range n).map nthChildId

/-! ## Error deduplication (trace2.go Error and Errorf)

Modelled from the spec: the loggedError marker type is declared outside
the files under src/ (only its uses appear in trace2.go); per the spec
it wraps an error value to record already-traced, unwrapping recovers
the original error, and the wrapped-versus-raw distinction is what the
type checks in Error and Errorf test. -/

/-- A Go error value as seen by the tracer: either a raw error with a
message, or one wrapped by the loggedError marker.
Modelled from the spec: the loggedError marker (wrapped records
already-traced; Error() delegates to the wrapped error). -/
inductive GoErr where
  | raw (msg : String)
  | logged (e : GoErr)
deriving DecidableEq

/-- The type check _, ok := err.(loggedError). -/
def isLoggedError : GoErr → Bool
  | .logged _ => true
  | .raw _ => false

/-- err.Error(): the marker delegates to the wrapped error. -/
def errMsg : GoErr → String
  | .raw m => m
  | .logged e => errMsg e

/-- The message built by fmt.Errorf(format, a...). The precise percent
substitution is immaterial to every claim here; it is modelled as the
format string followed by the argument messages. -/
def goErrorfMsg (format : String) (args : List GoErr) : String :=
  format ++ String.join (args.map (fun a => " " ++ errMsg a))

/-- The zap levels the tracer emits at. -/
inductive LogLevel where
  | debug
  | info
  | error
deriving DecidableEq

/-- One emitted record, reduced to the parts the error claims speak
about: event name, level, msg field and fmt field. -/
structure Tr2Record where
  event : String
  level : LogLevel
  msg : String
  fmtStr : String
deriving DecidableEq

/-- Error(ctx, err): when err is not already a loggedError, emit one
error-level record carrying msg and fmt (both err.Error()) and return
the wrapped error; otherwise emit nothing and return it unchanged (the
loggedError conversion of an already-wrapped value is the identity). -/
def trError (e : GoErr) : GoErr × List Tr2Record :=
  if isLoggedError e then (e, [])
  else (.logged e, [{ event := tr2Event_Error, level := .error,
                      msg := errMsg e, fmtStr := errMsg e }])

/-- Errorf(ctx, format, a...): build the new error from format and
args and mark it logged; emit one informational error record annotated
with the format string exactly when some argument is already logged. -/
def trErrorf (format : String) (args : List GoErr) : GoErr × List Tr2Record :=
  let isLogged := args.any isLoggedError
  let err := GoErr.logged (.raw (goErrorfMsg format args))
  if isLogged then
    (err, [{ event := tr2Event_Error, level := .info,
             msg := errMsg err, fmtStr := format }])
  else (err, [])

/-- A wrap applied to a propagating error: Error(ctx, e), or
Errorf(ctx, format, e, extra...) with the propagating error among the
arguments. -/
inductive WrapOp where
  | err
  | errf (format : String) (extraArgs : List GoErr)

/-- Apply one wrap to the propagating error. -/
def applyOp (e : GoErr) : WrapOp → GoErr × List Tr2Record
  | .err => trError e
  | .errf format extra => trErrorf format (e :: extra)

/-- Apply a sequence of wraps, collecting every emitted record. -/
def applyOps (e : GoErr) : List WrapOp → GoErr × List Tr2Record
  | [] => (e, [])
  | op :: ops =>
    let r1 := applyOp e op
    let r2 := applyOps r1.1 ops
    (r2.1, r1.2 ++ r2.2)

/-- The number of raw emissions: records emitted at error level (the
secondary records of Errorf are informational). -/
def rawEmissions (rs : List Tr2Record) : Nat :=
  rs.countP (fun r => r.level == LogLevel.error)

/-! ## Child-process ready callback (trace2.go ChildProcess) -/

/-- os.Process: present on the command only once Start succeeded. -/
structure GoProcess where
  pid : Int
deriving DecidableEq

/-- The parts of exec.Cmd that childReady reads. -/
structure GoCmd where
  args : List String
  process : Option GoProcess
deriving DecidableEq

/-- The child_ready record assembled by the callback. -/
structure ChildReadyRecord where
  childId : Int
  pid : Int
  ready : String
  argv : List String
deriving DecidableEq

/-- The ready callback returned by ChildProcess: chooses the ready
status from execError, then unconditionally reads cmd.Process.Pid.
When the child never started cmd.Process is nil and the read is a nil
pointer dereference, modelled as the error branch. -/
def childReady (cmd : GoCmd) (childId : Int) (execError : Option String) :
    Except String ChildReadyRecord :=
  let ready := if execError.isSome then "error" else "ready"
  match cmd.process with
  | none => .error "runtime error: invalid memory address or nil pointer dereference"
  | some p => .ok { childId := childId, pid := p.pid, ready := ready, argv := cmd.args }

/-! ## The required-field table of the spec -/

/-- The per-event required-field table as the spec states it, amended
at the start row: the encoder switch has no case for start (the
default returns an empty summary with no checks), so start has no
required event-specific field. -/
def specRequiredFields (event : String) : List String :=
  if event = tr2Event_CmdName then [tr2Field_Name]
  else if event = tr2Event_ChildStart then
    [tr2Field_ChildId, tr2Field_ChildClass, tr2Field_Argv]
  else if event = tr2Event_ChildReady then
    [tr2Field_ChildId, tr2Field_Pid, tr2Field_Ready]
  else if event = tr2Event_ChildExit then
    [tr2Field_ChildId, tr2Field_Pid, tr2Field_Code]
  else if event = tr2Event_Exit ∨ event = tr2Event_AtExit then [tr2Field_Code]
  else []

/-- The event kinds with a non-empty required set. -/
def requiredKinds : List String :=
  [tr2Event_CmdName, tr2Event_ChildStart, tr2Event_ChildReady,
   tr2Event_ChildExit, tr2Event_Exit, tr2Event_AtExit]

/-! ## Concrete inputs used to evaluate the embedding -/

/-- A fixed entry timestamp. -/
def witTime : GoTime := { hour := 0, minute := 0, second := 0, micro := 0 }

/-- A child_exit field set with pid missing (file, line and thread
present, as sharedFields always supplies them). -/
def witFieldsChildExit : FieldSet :=
  [("file", .str "main.go"), ("line", .int 10), ("thread", .str "main"),
   ("child_id", .int 0), ("code", .int 0)]

/-- A start field set without argv. -/
def cexFieldsStart : FieldSet :=
  [("file", .str "main.go"), ("line", .int 10), ("thread", .str "main")]

/-- A context already carrying a session id. -/
def ctxW : Ctx := [(CtxKey.sidId, CtxVal.sid "abc")]

/-- A child_exit entry for the event-channel evaluation. -/
def entChildExit : Tr2Entry :=
  { time := { hour := 12, minute := 34, second := 56, micro := 0 }, message := "child_exit" }

/-- A child_exit field set with pid missing, sent to the
GIT_TRACE2_EVENT channel. -/
def fsEventChannel : FieldSet :=
  [("file", .str "run.go"), ("line", .int 42), ("thread", .str "main"),
   ("child_id", .int 0), ("code", .int 0)]

/-- A synthetic file:line string of length 35. -/
def fl35 : String := "averyveryverylongfilename.go:123456"

/-! # Theorems

First the helper lemmas about the encoders, the context state, the
child-id counter and the error wrapper; then one theorem per claim. -/

/-! ## Performance-encoder lemmas -/

theorem getRequiredField_none {fields : FieldSet} {name : String}
    (h : getField fields name = none) :
    getRequiredField fields name = .error (.missingField name) := by
  simp [getRequiredField, h]

theorem getRequiredField_some {fields : FieldSet} {name : String} {v : FieldVal}
    (h : getField fields name = some v) :
    getRequiredField fields name = .ok v := by
  simp [getRequiredField, h]

/-- When some required field of a kind in the table is absent, the
summary builder fails with a field-missing error naming an absent
field (the first absent one in source check order). -/
theorem getEventLog_missing_required (ev : String) (hev : ev ∈ requiredKinds)
    (fields : FieldSet)
    (hmiss : ∃ f ∈ specRequiredFields ev, getField fields f = none) :
    ∃ f, getField fields f = none ∧ getEventLog ev fields = .error (.missingField f) := by
  simp only [requiredKinds, List.mem_cons, List.not_mem_nil, or_false] at hev
  rcases hev with rfl | rfl | rfl | rfl | rfl | rfl
  · simp [specRequiredFields] at hmiss
    exact ⟨_, hmiss, by simp [getEventLog, getRequiredField_none hmiss]⟩
  · by_cases h1 : getField fields "child_id" = none
    · exact ⟨_, h1, by simp [getEventLog, getRequiredField_none h1]⟩
    · obtain ⟨v1, hv1⟩ := Option.ne_none_iff_exists'.mp h1
      by_cases h2 : getField fields "child_class" = none
      · exact ⟨_, h2, by
          simp [getEventLog, getRequiredField_some hv1, getRequiredField_none h2]⟩
      · obtain ⟨v2, hv2⟩ := Option.ne_none_iff_exists'.mp h2
        by_cases h3 : getField fields "argv" = none
        · exact ⟨_, h3, by
            simp [getEventLog, getRequiredField_some hv1, getRequiredField_some hv2,
              getRequiredField_none h3]⟩
        · exfalso
          obtain ⟨f, hfmem, hfnone⟩ := hmiss
          simp [specRequiredFields] at hfmem
          rcases hfmem with rfl | rfl | rfl
          · exact h1 hfnone
          · exact h2 hfnone
          · exact h3 hfnone
  · by_cases h1 : getField fields "child_id" = none
    · exact ⟨_, h1, by simp [getEventLog, getRequiredField_none h1]⟩
    · obtain ⟨v1, hv1⟩ := Option.ne_none_iff_exists'.mp h1
      by_cases h2 : getField fields "pid" = none
      · exact ⟨_, h2, by
          simp [getEventLog, getRequiredField_some hv1, getRequiredField_none h2]⟩
      · obtain ⟨v2, hv2⟩ := Option.ne_none_iff_exists'.mp h2
        by_cases h3 : getField fields "ready" = none
        · exact ⟨_, h3, by
            simp [getEventLog, getRequiredField_some hv1, getRequiredField_some hv2,
              getRequiredField_none h3]⟩
        · exfalso
          obtain ⟨f, hfmem, hfnone⟩ := hmiss
          simp [specRequiredFields] at hfmem
          rcases hfmem with rfl | rfl | rfl
          · exact h1 hfnone
          · exact h2 hfnone
          · exact h3 hfnone
  · by_cases h1 : getField fields "child_id" = none
    · exact ⟨_, h1, by simp [getEventLog, getRequiredField_none h1]⟩
    · obtain ⟨v1, hv1⟩ := Option.ne_none_iff_exists'.mp h1
      by_cases h2 : getField fields "pid" = none
      · exact ⟨_, h2, by
          simp [getEventLog, getRequiredField_some hv1, getRequiredField_none h2]⟩
      · obtain ⟨v2, hv2⟩ := Option.ne_none_iff_exists'.mp h2
        by_cases h3 : getField fields "code" = none
        · exact ⟨_, h3, by
            simp [getEventLog, getRequiredField_some hv1, getRequiredField_some hv2,
              getRequiredField_none h3]⟩
        · exfalso
          obtain ⟨f, hfmem, hfnone⟩ := hmiss
          simp [specRequiredFields] at hfmem
          rcases hfmem with rfl | rfl | rfl
          · exact h1 hfnone
          · exact h2 hfnone
          · exact h3 hfnone
  · have hm : getField fields "code" = none := by
      obtain ⟨f, hfmem, hfnone⟩ := hmiss
      simp [specRequiredFields] at hfmem
      subst hfmem
      exact hfnone
    exact ⟨_, hm, by simp [getEventLog, getRequiredField_none hm]⟩
  · have hm : getField fields "code" = none := by
      obtain ⟨f, hfmem, hfnone⟩ := hmiss
      simp [specRequiredFields] at hfmem
      subst hfmem
      exact hfnone
    exact ⟨_, hm, by simp [getEventLog, getRequiredField_none hm]⟩

/-- C2 (as amended): for every event kind with a required set
(cmd_name, child_start, child_ready, child_exit, exit, atexit — the
encoder has no case and hence no requirement for start), a field set
missing at least one required field of the kind makes the
performance-table encoder fail with a field-missing error naming an
absent field, returning no output at all. -/
theorem perf_missing_required_field_fails (ev : String) (hev : ev ∈ requiredKinds)
    (t : GoTime) (fields : FieldSet)
    (hmiss : ∃ f ∈ specRequiredFields ev, getField fields f = none) :
    ∃ f, getField fields f = none ∧
      perfEncodeEntry false ⟨t, ev⟩ fields = .error (.missingField f) := by
  by_cases hf : getField fields "file" = none
  · exact ⟨_, hf, by simp [perfEncodeEntry, getRequiredField_none hf]⟩
  · obtain ⟨vf, hvf⟩ := Option.ne_none_iff_exists'.mp hf
    by_cases hl : getField fields "line" = none
    · exact ⟨_, hl, by
        simp [perfEncodeEntry, getRequiredField_some hvf, getRequiredField_none hl]⟩
    · obtain ⟨vl, hvl⟩ := Option.ne_none_iff_exists'.mp hl
      by_cases ht : getField fields "thread" = none
      · exact ⟨_, ht, by
          simp [perfEncodeEntry, getRequiredField_some hvf, getRequiredField_some hvl,
            getRequiredField_none ht]⟩
      · obtain ⟨vt, hvt⟩ := Option.ne_none_iff_exists'.mp ht
        obtain ⟨f, hfn, hlog⟩ := getEventLog_missing_required ev hev fields hmiss
        refine ⟨f, hfn, ?_⟩
        simp [perfEncodeEntry, getRequiredField_some hvf, getRequiredField_some hvl,
          getRequiredField_some hvt, hlog]

/-- C2 witness: child_exit with pid missing satisfies the hypotheses
and the encoder fails with the pid field-missing error. -/
theorem perf_missing_required_field_fails_witness :
    ("child_exit" ∈ requiredKinds) ∧
    (∃ f ∈ specRequiredFields "child_exit", getField witFieldsChildExit f = none) ∧
    (∃ f, getField witFieldsChildExit f = none ∧
      perfEncodeEntry false ⟨witTime, "child_exit"⟩ witFieldsChildExit
        = .error (.missingField f)) :=
  ⟨by decide, ⟨"pid", by decide, by decide⟩,
   perf_missing_required_field_fails "child_exit" (by decide) witTime witFieldsChildExit
     ⟨"pid", by decide, by decide⟩⟩

/-- C2 counterexample to the claim as stated: a start field set with
argv absent still encodes successfully, because the encoder switch has
no case for start; the claimed requirement start-needs-argv does not
hold. -/
theorem perf_start_missing_argv_succeeds :
    getField cexFieldsStart "argv" = none ∧
    (perfEncodeEntry false ⟨witTime, "start"⟩ cexFieldsStart).isOk = true := by
  constructor
  · decide
  · decide

/-- C1: the GIT_TRACE2_EVENT core renders with the performance-table
encoder (the JSON encoder assignment in createTrace2EventCore is a
dead store), so a child_exit field set missing pid fails on the
event-stream channel even though the JSON event-stream encoder, the
evident intent for that channel, succeeds on the same field set; a
performance-encoder failure therefore blocks event-stream output. -/
theorem eventstream_uses_perf_encoder :
    eventCoreEncoder = EncoderChoice.perf ∧
    eventCoreEncode entChildExit fsEventChannel = .error (.missingField "pid") ∧
    (jsonEncodeEntry entChildExit fsEventChannel).isOk = true :=
  ⟨rfl, by decide, rfl⟩

/-- C4: the truncation in EncodeEntry replaces the last three
characters with the ellipsis but keeps the length, so a file:line
string of length 35 renders at length 35 (ending in the ellipsis), not
at the column width 28 the spec states, and the minimum-width padding
does not shorten it. -/
theorem fileline_truncation_keeps_length :
    fl35.length = 35 ∧
    (truncFileLine fl35).length = 35 ∧
    (truncFileLine fl35).length ≠ tr2Enc_Perf_FileLineWidth ∧
    (truncFileLine fl35).drop 32 = "..." ∧
    padRight tr2Enc_Perf_FileLineWidth (truncFileLine fl35) = truncFileLine fl35 :=
  ⟨by decide, by decide, by decide, by decide, by decide⟩

/-! ## Context-state lemmas -/

theorem beq_sid_parent : (CtxKey.sidId == CtxKey.parentRegionId) = false := rfl

theorem beq_parent_sid : (CtxKey.parentRegionId == CtxKey.sidId) = false := rfl

theorem getRegionValue_cons_sid (v : CtxVal) (ctx : Ctx) :
    getRegionValue ((CtxKey.sidId, v) :: ctx) = getRegionValue ctx := by
  simp [getRegionValue, ctxValue, List.find?, beq_sid_parent]

theorem getRegionValue_cons_region (r : Trace2Region) (ctx : Ctx) :
    getRegionValue ((CtxKey.parentRegionId, CtxVal.region r) :: ctx) = some r := by
  simp [getRegionValue, ctxValue, List.find?]

theorem getSidValue_cons_region (r : Trace2Region) (ctx : Ctx) :
    getSidValue ((CtxKey.parentRegionId, CtxVal.region r) :: ctx) = getSidValue ctx := by
  simp [getSidValue, ctxValue, List.find?, beq_parent_sid]

theorem getRegionValue_shared (s : String) (ctx : Ctx) :
    getRegionValue (sharedFieldsCtx s ctx).1 = getRegionValue ctx := by
  cases h : getSidValue ctx <;>
    simp [sharedFieldsCtx, h, getRegionValue_cons_sid]

theorem getRegionValue_regionStep (s : String) (now : Int) (ctx : Ctx) :
    getRegionValue (regionStep s now ctx).1 = some (regionStep s now ctx).2 := by
  simp [regionStep, getRegionValue_cons_region]

/-- On every context the tracer can build, the stored region level is
nonnegative. -/
theorem reachable_region_level_nonneg {ctx : Ctx} (h : ReachableCtx ctx) :
    ∀ r : Trace2Region, getRegionValue ctx = some r → 0 ≤ r.level := by
  induction h with
  | nil => intro r hr; simp [getRegionValue, ctxValue, List.find?] at hr
  | shared s ctx hc ih =>
      intro r hr
      rw [getRegionValue_shared] at hr
      exact ih r hr
  | region s now ctx hc ih =>
      intro r hr
      rw [getRegionValue_regionStep] at hr
      cases hr
      cases h2 : getRegionValue ctx with
      | none => simp [regionStep, getRegionValue_shared, h2]
      | some r2 =>
          have := ih r2 h2
          simp [regionStep, getRegionValue_shared, h2]
          omega

/-- C5: a region entered on a context with no ancestor region records
level 0; entered under an ancestor of level N it records N + 1; and on
every context the tracer can build the recorded level is never
negative. -/
theorem region_nesting_level (s : String) (now : Int) (ctx : Ctx) :
    (getRegionValue ctx = none → (regionStep s now ctx).2.level = 0) ∧
    (∀ r : Trace2Region, getRegionValue ctx = some r →
      (regionStep s now ctx).2.level = r.level + 1) ∧
    (ReachableCtx ctx → 0 ≤ (regionStep s now ctx).2.level) := by
  refine ⟨?_, ?_, ?_⟩
  · intro h
    simp [regionStep, getRegionValue_shared, h]
  · intro r h
    simp [regionStep, getRegionValue_shared, h]
  · intro hreach
    cases h : getRegionValue ctx with
    | none => simp [regionStep, getRegionValue_shared, h]
    | some r =>
        have := reachable_region_level_nonneg hreach r h
        simp [regionStep, getRegionValue_shared, h]
        omega

/-- C5 witness: on the background context the level is 0 and
nonnegative; on the context it derives, the next region records 1. -/
theorem region_nesting_level_witness :
    (regionStep "sid0" 0 []).2.level = 0 ∧
    (regionStep "sid1" 7 (regionStep "sid0" 0 []).1).2.level = 1 ∧
    0 ≤ (regionStep "sid0" 0 []).2.level :=
  ⟨(region_nesting_level "sid0" 0 []).1 rfl,
   (region_nesting_level "sid1" 7 (regionStep "sid0" 0 []).1).2.1
     { level := 0, tStart := 0 } (by decide),
   (region_nesting_level "sid0" 0 []).2.2 ReachableCtx.nil⟩

/-- C6: Region returns a new context that extends the parent as a
shared suffix (structural sharing, no back-mutation); the level a
sibling derivation records depends only on the parent, so deriving one
sibling never changes what another records; the derived context sees
exactly the new region state; and the session id visible through the
parent is preserved in the derived context. -/
theorem region_derivation_frame (s1 : String) (now1 : Int) (ctx : Ctx) :
    (∃ pre : Ctx, pre ≠ [] ∧ (regionStep s1 now1 ctx).1 = pre ++ ctx) ∧
    (∀ (s2 : String) (now2 : Int),
      (regionStep s2 now2 ctx).2.level = (regionStep s1 now1 ctx).2.level) ∧
    (getRegionValue (regionStep s1 now1 ctx).1 = some (regionStep s1 now1 ctx).2) ∧
    (∀ sv : String, getSidValue ctx = some sv →
      getSidValue (regionStep s1 now1 ctx).1 = some sv) := by
  refine ⟨?_, ?_, getRegionValue_regionStep s1 now1 ctx, ?_⟩
  · cases h : getSidValue ctx with
    | some s =>
        refine ⟨[(CtxKey.parentRegionId, CtxVal.region (regionStep s1 now1 ctx).2)],
          by simp, ?_⟩
        simp [regionStep, sharedFieldsCtx, h]
    | none =>
        refine ⟨[(CtxKey.parentRegionId, CtxVal.region (regionStep s1 now1 ctx).2),
          (CtxKey.sidId, CtxVal.sid s1)], by simp, ?_⟩
        simp [regionStep, sharedFieldsCtx, h]
  · intro s2 now2
    cases h : getRegionValue ctx <;>
      simp [regionStep, getRegionValue_shared, h]
  · intro sv hsv
    simp [regionStep, sharedFieldsCtx, hsv, getSidValue_cons_region]

/-- C6 witness: on a context carrying a session id, sibling
derivations record the same level and the session id is preserved. -/
theorem region_derivation_frame_witness :
    (∃ pre : Ctx, pre ≠ [] ∧ (regionStep "s" 0 ctxW).1 = pre ++ ctxW) ∧
    (regionStep "x" 5 ctxW).2.level = (regionStep "s" 0 ctxW).2.level ∧
    getSidValue (regionStep "s" 0 ctxW).1 = some "abc" :=
  ⟨(region_derivation_frame "s" 0 ctxW).1,
   (region_derivation_frame "s" 0 ctxW).2.1 "x" 5,
   (region_derivation_frame "s" 0 ctxW).2.2.2 "abc" (by decide)⟩

/-! ## Child-id lemmas -/

theorem wrap32_eq_self {n : Int} (h1 : -(2 ^ 31) ≤ n) (h2 : n < 2 ^ 31) :
    wrap32 n = n := by
  unfold wrap32
  have h3 : (n + 2 ^ 31) % 2 ^ 32 = n + 2 ^ 31 :=
    Int.emod_eq_of_lt (by norm_num; omega) (by norm_num; omega)
  omega

theorem lastChildIdAfter_closed (n : Nat) (h : n ≤ 2 ^ 31) :
    lastChildIdAfter n = (n : Int) - 1 := by
  induction n with
  | zero => decide
  | succ k ih =>
      have hk : k ≤ 2 ^ 31 := Nat.le_of_succ_le h
      have hk2 : (k : Int) < 2 ^ 31 := by
        have : k < 2 ^ 31 := Nat.lt_of_lt_of_le (Nat.lt_succ_self k) h
        exact_mod_cast this
      rw [lastChildIdAfter, ih hk]
      unfold atomicAddInt32
      rw [show (k : Int) - 1 + 1 = (k : Int) by ring]
      rw [wrap32_eq_self (by norm_num; omega) hk2]
      push_cast
      ring

/-- C7 (as amended: for at most 2 to the 31 invocations, before int32
wraparound): the ids received by the first N ChildProcess invocations
on one recorder are exactly 0..N-1 in order, hence unique and strictly
increasing. -/
theorem childIds_unique_increasing (n : Nat) (h : n ≤ 2 ^ 31) :
    childIds n = (List.range n).map Int.ofNat ∧
    List.Pairwise (fun a b => a < b) (childIds n) := by
  have heq : childIds n = (List.range n).map Int.ofNat := by
    unfold childIds
    refine List.map_congr_left ?_
    intro k hk
    have hk2 : k + 1 ≤ 2 ^ 31 := by
      have := List.mem_range.mp hk
      omega
    unfold nthChildId
    rw [lastChildIdAfter_closed (k + 1) hk2, Int.ofNat_eq_natCast]
    push_cast
    ring
  refine ⟨heq, ?_⟩
  rw [heq, List.pairwise_map]
  exact (List.pairwise_lt_range n).imp (fun hab => Int.ofNat_lt.mpr hab)

/-- C7 witness: three invocations receive 0, 1, 2 in strictly
increasing order. -/
theorem childIds_unique_increasing_witness :
    (3 ≤ 2 ^ 31) ∧ childIds 3 = (List.range 3).map Int.ofNat ∧
    List.Pairwise (fun a b : Int => a < b) (childIds 3) :=
  ⟨by norm_num, (childIds_unique_increasing 3 (by norm_num)).1,
   (childIds_unique_increasing 3 (by norm_num)).2⟩

/-- C7 counterexample to the claim as stated: the counter is an int32,
so the invocation numbered 2 to the 31 (0-indexed) receives the
wrapped id, negative and smaller than the very first id — the ids of
one recorder lifetime are not strictly increasing and not 0..N-1 once
N exceeds 2 to the 31. -/
theorem childIds_int32_wraparound :
    nthChildId 0 = 0 ∧ nthChildId (2 ^ 31) = -(2 ^ 31) ∧
    nthChildId (2 ^ 31) < nthChildId 0 := by
  have h0 : nthChildId 0 = 0 := by decide
  have h1 : nthChildId (2 ^ 31) = -(2 ^ 31) := by
    unfold nthChildId
    rw [lastChildIdAfter]
    rw [lastChildIdAfter_closed (2 ^ 31) (le_refl _)]
    unfold atomicAddInt32
    unfold wrap32
    norm_num
  exact ⟨h0, h1, by rw [h0, h1]; norm_num⟩

/-! ## Error-wrapper lemmas -/

theorem isLoggedError_logged (e : GoErr) : isLoggedError (GoErr.logged e) = true := rfl

theorem isLoggedError_raw (m : String) : isLoggedError (GoErr.raw m) = false := rfl

theorem trError_logged {e : GoErr} (h : isLoggedError e = true) :
    trError e = (e, []) := by
  simp [trError, h]

theorem applyOp_fst_logged (e : GoErr) (op : WrapOp) :
    isLoggedError (applyOp e op).1 = true := by
  cases op with
  | err =>
      cases e with
      | raw m => simp [applyOp, trError, isLoggedError]
      | logged e2 => simp [applyOp, trError, isLoggedError]
  | errf format extra =>
      simp only [applyOp, trErrorf]
      split <;> simp [isLoggedError]

theorem rawEmissions_append (a b : List Tr2Record) :
    rawEmissions (a ++ b) = rawEmissions a + rawEmissions b := by
  simp [rawEmissions, List.countP_append]

theorem rawEmissions_trErrorf (format : String) (args : List GoErr) :
    rawEmissions (trErrorf format args).2 = 0 := by
  simp only [trErrorf]
  split <;> rfl

theorem rawEmissions_applyOp_logged {e : GoErr} (h : isLoggedError e = true)
    (op : WrapOp) : rawEmissions (applyOp e op).2 = 0 := by
  cases op with
  | err => simp [applyOp, trError_logged h, rawEmissions]
  | errf format extra => exact rawEmissions_trErrorf format (e :: extra)

theorem rawEmissions_applyOps_logged (ops : List WrapOp) :
    ∀ e : GoErr, isLoggedError e = true → rawEmissions (applyOps e ops).2 = 0 := by
  induction ops with
  | nil => intro e h; simp [applyOps, rawEmissions]
  | cons op ops ih =>
      intro e h
      simp only [applyOps]
      rw [rawEmissions_append, rawEmissions_applyOp_logged h op,
        ih (applyOp e op).1 (applyOp_fst_logged e op)]

/-- C3 (as amended): a raw error first wrapped by Error is emitted at
error level exactly once, at that deepest wrapping site, and no later
wrap in any sequence emits another error-level record; Error on an
already-logged error is an emission no-op returning it unchanged;
Errorf with an already-logged argument emits exactly one secondary
informational record annotated with the format string; Errorf whose
arguments are all unlogged emits nothing (it marks the new error
logged without tracing the raw cause). -/
theorem error_dedup_sequences (msg : String) (ops : List WrapOp) :
    rawEmissions (applyOps (GoErr.raw msg) (WrapOp.err :: ops)).2 = 1 ∧
    (∀ e : GoErr, isLoggedError e = true → trError e = (e, [])) ∧
    (∀ e : GoErr, isLoggedError e = true → rawEmissions (applyOps e ops).2 = 0) ∧
    (∀ (format : String) (args : List GoErr), args.any isLoggedError = true →
      (trErrorf format args).2 =
        [{ event := tr2Event_Error, level := .info,
           msg := goErrorfMsg format args, fmtStr := format }]) ∧
    (∀ (format : String) (args : List GoErr), args.any isLoggedError = false →
      (trErrorf format args).2 = []) := by
  refine ⟨?_, fun e h => trError_logged h, fun e h => rawEmissions_applyOps_logged ops e h,
    ?_, ?_⟩
  · simp only [applyOps]
    rw [rawEmissions_append]
    have h1 : applyOp (GoErr.raw msg) WrapOp.err =
        (GoErr.logged (GoErr.raw msg),
         [{ event := tr2Event_Error, level := .error,
            msg := msg, fmtStr := msg }]) := by
      simp [applyOp, trError, isLoggedError, errMsg]
    rw [h1]
    rw [rawEmissions_applyOps_logged ops _ (by simp [isLoggedError])]
    simp [rawEmissions, List.countP, List.countP.go]
  · intro format args h
    simp [trErrorf, h, errMsg]
  · intro format args h
    simp [trErrorf, h]

/-- C3 witness: Error then Errorf on the result emits one raw record
in total, Error on a logged error is a no-op, and Errorf with a logged
argument emits the one informational record carrying the format. -/
theorem error_dedup_sequences_witness :
    rawEmissions (applyOps (GoErr.raw "boom") (WrapOp.err :: [WrapOp.errf "wrap" []])).2 = 1 ∧
    trError (GoErr.logged (GoErr.raw "x")) = (GoErr.logged (GoErr.raw "x"), []) ∧
    ([GoErr.logged (GoErr.raw "x")].any isLoggedError = true) ∧
    (trErrorf "outer" [GoErr.logged (GoErr.raw "x")]).2 =
      [{ event := tr2Event_Error, level := .info,
         msg := goErrorfMsg "outer" [GoErr.logged (GoErr.raw "x")], fmtStr := "outer" }] :=
  ⟨(error_dedup_sequences "boom" [WrapOp.errf "wrap" []]).1,
   (error_dedup_sequences "boom" []).2.1 _ (by decide),
   by decide,
   (error_dedup_sequences "boom" []).2.2.2.1 "outer" [GoErr.logged (GoErr.raw "x")] (by decide)⟩

/-- C3 counterexample to the claim as stated: when the deepest wrap is
an Errorf call, the raw cause is never emitted at all — the one-wrap
sequence emits zero records, not the claimed exactly-once raw
emission. -/
theorem errorf_first_wrap_emits_nothing :
    (applyOps (GoErr.raw "boom") [WrapOp.errf "outer" []]).2 = [] := by decide

/-- C8 (as amended: for every error not already marked logged):
Error emits exactly one error record, Error again on the returned
value emits nothing, and both results are marked logged — Error is
idempotent in emission and result. -/
theorem error_idempotent (e : GoErr) (h : isLoggedError e = false) :
    (trError e).2 = [{ event := tr2Event_Error, level := .error,
                       msg := errMsg e, fmtStr := errMsg e }] ∧
    (trError (trError e).1).2 = [] ∧
    isLoggedError (trError e).1 = true ∧
    isLoggedError (trError (trError e).1).1 = true := by
  simp [trError, h, isLoggedError_logged]

/-- C8 witness: a raw error satisfies the hypothesis; the double call
emits one record. -/
theorem error_idempotent_witness :
    isLoggedError (GoErr.raw "x") = false ∧
    (trError (GoErr.raw "x")).2 = [{ event := tr2Event_Error, level := .error,
                                     msg := "x", fmtStr := "x" }] ∧
    (trError (trError (GoErr.raw "x")).1).2 = [] ∧
    isLoggedError (trError (GoErr.raw "x")).1 = true :=
  ⟨by decide, (error_idempotent (GoErr.raw "x") (by decide)).1,
   (error_idempotent (GoErr.raw "x") (by decide)).2.1,
   (error_idempotent (GoErr.raw "x") (by decide)).2.2.1⟩

/-- C8 counterexample to the claim as stated: on an error already
marked logged, the double Error call emits zero records in total, not
exactly one. -/
theorem error_on_logged_emits_nothing :
    (trError (GoErr.logged (GoErr.raw "boom"))).2 = [] ∧
    (trError (trError (GoErr.logged (GoErr.raw "boom"))).1).2 = [] := by decide

/-- C10: every error returned by Errorf is marked logged, even when no
argument was logged and hence nothing was emitted, and a subsequent
Error call on the returned value emits nothing. -/
theorem errorf_always_marks_logged (format : String) (args : List GoErr) :
    isLoggedError (trErrorf format args).1 = true ∧
    (args.any isLoggedError = false → (trErrorf format args).2 = []) ∧
    (trError (trErrorf format args).1).2 = [] := by
  refine ⟨?_, ?_, ?_⟩
  · simp only [trErrorf]
    split <;> simp [isLoggedError]
  · intro h
    simp [trErrorf, h]
  · have h1 : isLoggedError (trErrorf format args).1 = true := by
      simp only [trErrorf]
      split <;> simp [isLoggedError]
    simp [trError_logged h1]

/-- C10 witness: Errorf with one raw argument returns a logged error,
emits nothing, and Error on the result emits nothing. -/
theorem errorf_always_marks_logged_witness :
    isLoggedError (trErrorf "ctx" [GoErr.raw "a"]).1 = true ∧
    ([GoErr.raw "a"].any isLoggedError = false) ∧
    (trErrorf "ctx" [GoErr.raw "a"]).2 = [] ∧
    (trError (trErrorf "ctx" [GoErr.raw "a"]).1).2 = [] :=
  ⟨(errorf_always_marks_logged "ctx" [GoErr.raw "a"]).1,
   by decide,
   (errorf_always_marks_logged "ctx" [GoErr.raw "a"]).2.1 (by decide),
   (errorf_always_marks_logged "ctx" [GoErr.raw "a"]).2.2⟩

/-- C9: the ready callback reads cmd.Process.Pid unconditionally, so
invoking it for a child that failed to start (no process handle) is a
nil pointer dereference rather than a record without the PID; with a
process handle present it emits the child_ready record. -/
theorem childready_nil_process_crashes :
    childReady { args := ["git", "fetch"], process := none } 0 (some "exec failed")
      = .error "runtime error: invalid memory address or nil pointer dereference" ∧
    childReady { args := ["git", "fetch"], process := some { pid := 123 } } 0 none
      = .ok { childId := 0, pid := 123, ready := "ready", argv := ["git", "fetch"] } :=
  ⟨by decide, by decide⟩

end Trace2Spec
